import Mathlib

set_option linter.unusedVariables false

/-
Shallow embedding of the carwash booking backend (src/carwash/main.py).

Modelling conventions:
- UUID identifiers are modelled as `Nat` (only equality of identifiers is
  ever used by the code).
- A calendar date is modelled as `Nat` (only equality is used).
- A time-of-day is modelled as `Nat`, the number of seconds since midnight:
  the code parses `"%H:%M:%S"` strings, compares `time` values (a total
  order) and measures gaps via `timedelta.total_seconds() / 60`.  A
  comparison `seconds / 60 >= duration` is embedded as
  `60 * duration ≤ seconds`, which is the same inequality over the exact
  values.
- Geographic and free-text columns (name, address, latitude, longitude,
  rate, description) are never read by the operations verified here and
  are omitted from the record types.
- SQL rows fetched from the store are represented by lists carried in a
  `Store` value; `SELECT ... WHERE id = x` becomes `List.find?`,
  `SELECT ... WHERE <cond>` becomes `List.filter`, and an
  `ORDER BY washwindow, starttime` clause becomes an insertion sort by
  that lexicographic key.
- An HTTP endpoint that can fail becomes a function into `Except ApiError`;
  the handlers roll the session back on failure, so each fallible
  operation also returns the (possibly updated) store.
-/

/-- Row of the `carwashes` table, restricted to the columns the verified
operations read (`carwashid`, `openingtime`, `closingtime`,
`windowsnumber`). -/
structure Carwash where
  carwashid : Nat
  openingtime : Nat
  closingtime : Nat
  windowsnumber : Int
deriving DecidableEq, Repr

/-- Row of the `services` table, restricted to the columns the verified
operations read (`serviceid`, `duration`, `carwashid`). -/
structure Service where
  serviceid : Nat
  duration : Int
  carwashid : Nat
deriving DecidableEq, Repr

/-- Request body `OrderBase` (main.py lines 48-56).  The `state` field has
the pydantic default `1` (pending) when the client omits it. -/
structure OrderBase where
  carwashid : Nat
  serviceid : Nat
  clientid : Nat
  date : Nat
  starttime : Nat
  endtime : Nat
  washwindow : Int
  state : Int := 1
deriving DecidableEq, Repr

/-- Row of the `orders` table: the request fields plus the assigned
`orderid` (response model `OrderResponse`). -/
structure Order extends OrderBase where
  orderid : Nat
deriving DecidableEq, Repr

/-- One element of the `available_slots` list produced by
`get_available_windows`: a window number and the start/end of a free
interval.  (The handler renders the two times as `"%H:%M"` strings; the
embedding keeps the underlying time values.) -/
structure Slot where
  washwindow : Nat
  starttime : Nat
  endtime : Nat
deriving DecidableEq, Repr

/-- The persistent store visible to the verified operations. -/
structure Store where
  carwashes : List Carwash
  services : List Service
  orders : List Order
deriving DecidableEq, Repr

/-- Failure kinds surfaced by the handlers: HTTP 404 (`notFound`), the
explicit 400 conflict response (`conflict`), and a 400 built from a raised
database exception (`storeError`). -/
inductive ApiError where
  | notFound
  | conflict
  | storeError
deriving DecidableEq, Repr

/-- Comparison key of `ORDER BY washwindow, starttime` (main.py line 407):
`a` may precede `b` iff its `(washwindow, starttime)` key is
lexicographically no greater. -/
def orderLe (a b : Order) : Bool :=
  a.washwindow < b.washwindow || (a.washwindow == b.washwindow && a.starttime ≤ b.starttime)

/-- Insert an order into a list sorted by `orderLe`, keeping it sorted. -/
def insertSorted (o : Order) : List Order → List Order
  | [] => [o]
  | x :: xs => if orderLe o x then o :: x :: xs else x :: insertSorted o xs

/-- Sort a list of orders by `orderLe` (the embedding of the SQL
`ORDER BY washwindow, starttime`; ties are left in an arbitrary order,
as in SQL). -/
def sortOrders : List Order → List Order
  | [] => []
  | x :: xs => insertSorted x (sortOrders xs)

/-- The `booked_windows` query of `get_available_windows` (main.py lines
402-410): all orders of the given carwash on the given date, ordered by
`(washwindow, starttime)`. -/
def ordersFor (st : Store) (cid : Nat) (d : Nat) : List Order :=
  sortOrders (st.orders.filter (fun o => o.carwashid == cid && o.date == d))

/-- The per-window loop body of `get_available_windows` (main.py lines
415-444) for one window `w`: starting from `cursor` (the handler's
`current_time`, initially the opening time), walk the window's bookings;
before each booking emit the gap `[cursor, booking.starttime)` when the
cursor is strictly earlier and the gap is at least `duration` minutes
long, then set the cursor to `booking.endtime` (the source reassigns
unconditionally, it does not take a max); after the last booking emit the
trailing gap up to `closing` under the same length test. -/
def emitWindow (w : Nat) (duration : Int) (closing : Nat) : Nat → List Order → List Slot
  | cursor, [] =>
      if cursor < closing ∧ 60 * duration ≤ (closing : Int) - (cursor : Int) then
        [⟨w, cursor, closing⟩]
      else []
  | cursor, b :: rest =>
      (if cursor < b.starttime ∧ 60 * duration ≤ (b.starttime : Int) - (cursor : Int) then
        [⟨w, cursor, b.starttime⟩]
      else []) ++ emitWindow w duration closing b.endtime rest

/-- The value of the handler's `current_time` variable after the booking
loop of `get_available_windows` (main.py line 433): each iteration
executes `current_time = booking_end`, an unconditional reassignment. -/
def cursorAfter : Nat → List Order → Nat
  | cursor, [] => cursor
  | _cursor, b :: rest => cursorAfter b.endtime rest

/-- The `available_slots` list built by `get_available_windows` (main.py
lines 413-444): one flat list, extended window by window for
`window in range(1, windows_number + 1)`, each window scanning the
bookings whose `washwindow` equals that window number. -/
def availableSlots (opening closing : Nat) (duration : Int) (windowsnumber : Int)
    (booked : List Order) : List Slot :=
  (List.range' 1 windowsnumber.toNat).flatMap fun w =>
    emitWindow w duration closing opening (booked.filter (fun b => b.washwindow == (w : Int)))

/-- Endpoint `GET /carwashes/{carwash_id}/available_windows` (main.py
lines 371-457), reduced to its data content: 404 when the carwash or the
service is absent, otherwise the flat list of free slots.  The handler
performs no validation of `duration` or `windowsnumber`. -/
def get_available_windows (st : Store) (carwashid : Nat) (d : Nat) (serviceid : Nat) :
    Except ApiError (List Slot) :=
  match st.carwashes.find? (fun c => c.carwashid == carwashid) with
  | none => .error .notFound
  | some cw =>
    match st.services.find? (fun s => s.serviceid == serviceid) with
    | none => .error .notFound
    | some sv =>
      .ok (availableSlots cw.openingtime cw.closingtime sv.duration cw.windowsnumber
            (ordersFor st carwashid d))

/-- The three boolean clauses written inside the availability query of
`create_order` (main.py lines 239-241), with `cs, ce` the candidate's
`:starttime, :endtime` and `bs, be` an existing row's
`starttime, endtime`. -/
def tripleClauseOverlap (cs ce bs be : Nat) : Bool :=
  (cs ≥ bs && cs < be) || (ce > bs && ce ≤ be) || (cs ≤ bs && ce ≥ be)

/-- Modelled from the spec (section 4.1): the canonical half-open interval
overlap test `a.start < b.end AND b.start < a.end`. -/
def overlaps (cs ce bs be : Nat) : Bool :=
  cs < be && bs < ce

/-- Endpoint `POST /orders/` (main.py lines 213-279).  The handler first
fetches the carwash and the service and answers 404 when either is
missing.  It then executes the availability query (lines 232-251); that
query's text is syntactically invalid SQL — the parenthesis opened by
`AND (` on line 238 is never closed before `LIMIT 1` on line 242 — so the
database rejects the statement, the generic `except Exception` handler
rolls the session back and raises a 400 error built from the exception.
The conflict decision (line 253) and the INSERT (lines 257-271) are
therefore unreachable, and the store is returned unchanged on every
path. -/
def create_order (st : Store) (order : OrderBase) (newId : Nat) :
    Except ApiError Order × Store :=
  if (st.carwashes.find? (fun c => c.carwashid == order.carwashid)).isNone
      || (st.services.find? (fun s => s.serviceid == order.serviceid)).isNone then
    (.error .notFound, st)
  else
    (.error .storeError, st)

/-- The row function of the SQL `UPDATE orders SET state = :state WHERE
orderid = :orderid` (main.py lines 314-320): a matching row gets the new
state, every other row is unchanged. -/
def setState (ns : Int) (oid : Nat) (o : Order) : Order :=
  if o.orderid == oid then { o with state := ns } else o

/-- Endpoint `PATCH /orders/{order_id}` (main.py lines 300-333): 404 when
no order has the given id; otherwise update the matching row's `state`
and return the updated row (`RETURNING ... fetchone()`). -/
def update_order_state (st : Store) (oid : Nat) (newState : Int) :
    Except ApiError Order × Store :=
  if (st.orders.find? (fun o => o.orderid == oid)).isNone then
    (.error .notFound, st)
  else
    match (st.orders.map (setState newState oid)).find? (fun o => o.orderid == oid) with
    | some o => (.ok o, { st with orders := st.orders.map (setState newState oid) })
    | none => (.error .storeError, st)

/-- Every slot emitted for window `w` is tagged with window `w`. -/
theorem washwindow_of_mem_emitWindow {w : Nat} {d : Int} {cl : Nat} {bs : List Order} :
    ∀ {cur : Nat} {s : Slot}, s ∈ emitWindow w d cl cur bs → s.washwindow = w := by
  induction bs with
  | nil =>
    intro cur s h
    simp only [emitWindow] at h
    split at h
    · simp only [List.mem_singleton] at h
      subst h; rfl
    · simp at h
  | cons b rest ih =>
    intro cur s h
    simp only [emitWindow, List.mem_append] at h
    rcases h with h | h
    · split at h
      · simp only [List.mem_singleton] at h
        subst h; rfl
      · simp at h
    · exact ih h

/-- Every emitted slot is a nonempty interval at least `d` minutes long
(the emission guard of `emitWindow`). -/
theorem length_of_mem_emitWindow {w : Nat} {d : Int} {cl : Nat} {bs : List Order} :
    ∀ {cur : Nat} {s : Slot}, s ∈ emitWindow w d cl cur bs →
      s.starttime < s.endtime ∧ 60 * d ≤ (s.endtime : Int) - (s.starttime : Int) := by
  induction bs with
  | nil =>
    intro cur s h
    simp only [emitWindow] at h
    split at h
    case isTrue hc =>
      simp only [List.mem_singleton] at h
      subst h; exact hc
    case isFalse => simp at h
  | cons b rest ih =>
    intro cur s h
    simp only [emitWindow, List.mem_append] at h
    rcases h with h | h
    · split at h
      case isTrue hc =>
        simp only [List.mem_singleton] at h
        subst h; exact hc
      case isFalse => simp at h
    · exact ih h

/-- An emitted slot starts either at the initial cursor position or at the
end time of one of the processed bookings. -/
theorem start_of_mem_emitWindow {w : Nat} {d : Int} {cl : Nat} {bs : List Order} :
    ∀ {cur : Nat} {s : Slot}, s ∈ emitWindow w d cl cur bs →
      s.starttime = cur ∨ ∃ b ∈ bs, s.starttime = b.endtime := by
  induction bs with
  | nil =>
    intro cur s h
    simp only [emitWindow] at h
    split at h
    · simp only [List.mem_singleton] at h
      subst h; exact .inl rfl
    · simp at h
  | cons b rest ih =>
    intro cur s h
    simp only [emitWindow, List.mem_append] at h
    rcases h with h | h
    · split at h
      · simp only [List.mem_singleton] at h
        subst h; exact .inl rfl
      · simp at h
    · rcases ih h with h' | ⟨r, hr, h'⟩
      · exact .inr ⟨b, List.mem_cons_self b rest, h'⟩
      · exact .inr ⟨r, List.mem_cons_of_mem b hr, h'⟩

/-- When every booking of the window is a nonempty interval and the
bookings are processed in ascending start-time order, the emitted slots
are pairwise separated: each ends no later than the next begins, and
their start times strictly increase.  This holds for arbitrary
arrangements (overlapping or contained bookings included), despite the
unconditional cursor reassignment. -/
theorem pairwise_emitWindow {w : Nat} {d : Int} {cl : Nat} {bs : List Order}
    (hwf : ∀ b ∈ bs, b.starttime < b.endtime)
    (hsorted : bs.Pairwise (fun a b => a.starttime ≤ b.starttime)) :
    ∀ (cur : Nat), (emitWindow w d cl cur bs).Pairwise
      (fun s t => s.endtime ≤ t.starttime ∧ s.starttime < t.starttime) := by
  induction bs with
  | nil =>
    intro cur
    simp only [emitWindow]
    split
    · exact List.pairwise_singleton _ _
    · exact List.Pairwise.nil
  | cons b rest ih =>
    intro cur
    have hwfb : b.starttime < b.endtime := hwf b (List.mem_cons_self b rest)
    have hwf' : ∀ r ∈ rest, r.starttime < r.endtime :=
      fun r hr => hwf r (List.mem_cons_of_mem b hr)
    have hhd : ∀ r ∈ rest, b.starttime ≤ r.starttime :=
      fun r hr => List.rel_of_pairwise_cons hsorted hr
    have htail := ih hwf' hsorted.of_cons b.endtime
    simp only [emitWindow]
    split
    case isTrue hc =>
      simp only [List.singleton_append]
      refine List.Pairwise.cons ?_ htail
      intro t ht
      rcases start_of_mem_emitWindow ht with h' | ⟨r, hr, h'⟩
      · show b.starttime ≤ t.starttime ∧ cur < t.starttime
        omega
      · have h1 := hhd r hr
        have h2 := hwf' r hr
        show b.starttime ≤ t.starttime ∧ cur < t.starttime
        omega
    case isFalse =>
      simpa using htail

/-- The `ORDER BY (washwindow, starttime)` key is total. -/
theorem orderLe_total (a b : Order) : orderLe a b = true ∨ orderLe b a = true := by
  simp only [orderLe, Bool.or_eq_true, Bool.and_eq_true, decide_eq_true_eq, beq_iff_eq]
  omega

/-- The `ORDER BY (washwindow, starttime)` key is transitive. -/
theorem orderLe_trans {a b c : Order} (h1 : orderLe a b = true) (h2 : orderLe b c = true) :
    orderLe a c = true := by
  simp only [orderLe, Bool.or_eq_true, Bool.and_eq_true, decide_eq_true_eq, beq_iff_eq] at *
  omega

/-- Membership in an insertion step. -/
theorem mem_insertSorted {o x : Order} {l : List Order} :
    x ∈ insertSorted o l ↔ x = o ∨ x ∈ l := by
  induction l with
  | nil => simp [insertSorted]
  | cons y ys ih =>
    simp only [insertSorted]
    split
    · simp only [List.mem_cons]
    · simp only [List.mem_cons, ih]
      tauto

/-- Inserting into a sorted list keeps it sorted. -/
theorem pairwise_insertSorted {o : Order} {l : List Order}
    (h : l.Pairwise (fun a b => orderLe a b = true)) :
    (insertSorted o l).Pairwise (fun a b => orderLe a b = true) := by
  induction l with
  | nil => simp [insertSorted]
  | cons y ys ih =>
    simp only [insertSorted]
    split
    case isTrue hle =>
      refine List.Pairwise.cons ?_ h
      intro t ht
      rcases List.mem_cons.1 ht with rfl | ht'
      · exact hle
      · exact orderLe_trans hle (List.rel_of_pairwise_cons h ht')
    case isFalse hle =>
      refine List.Pairwise.cons ?_ (ih h.of_cons)
      intro t ht
      rcases mem_insertSorted.1 ht with rfl | ht'
      · rcases orderLe_total y t with h' | h'
        · exact h'
        · exact absurd h' (by simpa using hle)
      · exact List.rel_of_pairwise_cons h ht'

/-- The embedded `ORDER BY` produces a list sorted by its key. -/
theorem pairwise_sortOrders (l : List Order) :
    (sortOrders l).Pairwise (fun a b => orderLe a b = true) := by
  induction l with
  | nil => exact List.Pairwise.nil
  | cons x xs ih => exact pairwise_insertSorted ih

/-- Sorting neither adds nor removes rows. -/
theorem mem_sortOrders {x : Order} {l : List Order} : x ∈ sortOrders l ↔ x ∈ l := by
  induction l with
  | nil => simp [sortOrders]
  | cons y ys ih =>
    simp only [sortOrders, mem_insertSorted, List.mem_cons, ih]

/-- Restricting a list sorted by `(washwindow, starttime)` to a single
window leaves a list sorted by start time. -/
theorem sorted_starts_of_filter_window (l : List Order) (w : Nat)
    (h : l.Pairwise (fun a b => orderLe a b = true)) :
    (l.filter (fun b => b.washwindow == (w : Int))).Pairwise
      (fun a b => a.starttime ≤ b.starttime) := by
  refine (h.filter (fun b => b.washwindow == (w : Int))).imp_of_mem ?_
  intro a b ha hb hab
  have ha' := (List.mem_filter.1 ha).2
  have hb' := (List.mem_filter.1 hb).2
  simp only [beq_iff_eq] at ha' hb'
  simp only [orderLe, Bool.or_eq_true, Bool.and_eq_true, decide_eq_true_eq, beq_iff_eq] at hab
  omega

/-- Slots of windows other than `w` are dropped by the `w` filter. -/
theorem filter_flatMap_of_not_mem {L : List Nat} {w : Nat} {f : Nat → List Slot}
    (htag : ∀ w' ∈ L, ∀ s ∈ f w', s.washwindow = w') (hw : w ∉ L) :
    (L.flatMap f).filter (fun s => s.washwindow == w) = [] := by
  induction L with
  | nil => simp
  | cons a L ih =>
    simp only [List.mem_cons, not_or] at hw
    have h1 : (f a).filter (fun s => s.washwindow == w) = [] := by
      refine List.filter_eq_nil_iff.2 ?_
      intro s hs
      have hsa := htag a (List.mem_cons_self a L) s hs
      simp only [beq_iff_eq, hsa]
      exact fun h => hw.1 h.symm
    have h2 := ih (fun w' hw' s hs => htag w' (List.mem_cons_of_mem a hw') s hs) hw.2
    simp only [List.flatMap_cons, List.filter_append, h1, h2, List.append_nil]

/-- When the window numbers are distinct and every slot block is tagged
with its window, filtering the concatenated output by window `w` recovers
exactly window `w`'s block. -/
theorem filter_flatMap_of_mem {L : List Nat} {w : Nat} {f : Nat → List Slot}
    (htag : ∀ w' ∈ L, ∀ s ∈ f w', s.washwindow = w') (hnd : L.Nodup) (hw : w ∈ L) :
    (L.flatMap f).filter (fun s => s.washwindow == w) = f w := by
  induction L with
  | nil => simp at hw
  | cons a L ih =>
    have htag' : ∀ w' ∈ L, ∀ s ∈ f w', s.washwindow = w' :=
      fun w' hw' s hs => htag w' (List.mem_cons_of_mem a hw') s hs
    have hnd' := (List.nodup_cons.1 hnd).2
    have hna : a ∉ L := (List.nodup_cons.1 hnd).1
    rcases List.mem_cons.1 hw with rfl | hw'
    · have h1 : (f w).filter (fun s => s.washwindow == w) = f w := by
        refine List.filter_eq_self.2 ?_
        intro s hs
        simp [htag w (List.mem_cons_self w L) s hs]
      have h2 := filter_flatMap_of_not_mem htag' hna
      simp only [List.flatMap_cons, List.filter_append, h1, h2, List.append_nil]
    · have h1 : (f a).filter (fun s => s.washwindow == w) = [] := by
        refine List.filter_eq_nil_iff.2 ?_
        intro s hs
        have hsa := htag a (List.mem_cons_self a L) s hs
        simp only [beq_iff_eq, hsa]
        intro h
        exact hna (h ▸ hw')
      simp only [List.flatMap_cons, List.filter_append, h1, ih htag' hnd' hw',
        List.nil_append]

/-- Filtering the flat `available_slots` list by a window number in range
yields exactly that window's block. -/
theorem availableSlots_filter_of_mem {opening closing : Nat} {d wn : Int}
    {booked : List Order} {w : Nat} (hw : w ∈ List.range' 1 wn.toNat) :
    (availableSlots opening closing d wn booked).filter (fun s => s.washwindow == w)
      = emitWindow w d closing opening
          (booked.filter (fun b => b.washwindow == (w : Int))) := by
  simp only [availableSlots]
  exact filter_flatMap_of_mem (fun w' _ s hs => washwindow_of_mem_emitWindow hs)
    (List.nodup_range' 1 wn.toNat) hw

/-- Filtering the flat `available_slots` list by a window number outside
the range `1..windowsnumber` yields nothing. -/
theorem availableSlots_filter_of_not_mem {opening closing : Nat} {d wn : Int}
    {booked : List Order} {w : Nat} (hw : w ∉ List.range' 1 wn.toNat) :
    (availableSlots opening closing d wn booked).filter (fun s => s.washwindow == w) = [] := by
  simp only [availableSlots]
  exact filter_flatMap_of_not_mem (fun w' _ s hs => washwindow_of_mem_emitWindow hs) hw

/-- When both referenced entities exist, the availability endpoint
returns the computed slot list. -/
theorem get_available_windows_ok {st : Store} {cid d sid : Nat} {cw : Carwash} {sv : Service}
    (hcw : st.carwashes.find? (fun c => c.carwashid == cid) = some cw)
    (hsv : st.services.find? (fun s => s.serviceid == sid) = some sv) :
    get_available_windows st cid d sid
      = .ok (availableSlots cw.openingtime cw.closingtime sv.duration cw.windowsnumber
          (ordersFor st cid d)) := by
  simp [get_available_windows, hcw, hsv]

/-- Bookings fetched for the availability computation inherit the
well-formedness of the stored orders. -/
theorem ordersFor_wf (st : Store) (cid d : Nat)
    (hwf : ∀ o ∈ st.orders, o.starttime < o.endtime) :
    ∀ o ∈ ordersFor st cid d, o.starttime < o.endtime := by
  intro o ho
  have hm := mem_sortOrders.1 ho
  exact hwf o (List.mem_filter.1 hm).1

/-- Bookings fetched for the availability computation come back sorted by
the `(washwindow, starttime)` key. -/
theorem ordersFor_sorted (st : Store) (cid d : Nat) :
    (ordersFor st cid d).Pairwise (fun a b => orderLe a b = true) :=
  pairwise_sortOrders _

/-- Per-window separation of the flat slot list: for any window number,
the slots tagged with it are pairwise separated with strictly increasing
start times, provided the bookings are nonempty intervals sorted by the
fetch key. -/
theorem availableSlots_window_pairwise (opening closing : Nat) (dur wn : Int)
    (booked : List Order) (w : Nat)
    (hwf : ∀ o ∈ booked, o.starttime < o.endtime)
    (hsorted : booked.Pairwise (fun a b => orderLe a b = true)) :
    ((availableSlots opening closing dur wn booked).filter
        (fun s => s.washwindow == w)).Pairwise
      (fun s t => s.endtime ≤ t.starttime ∧ s.starttime < t.starttime) := by
  by_cases hw : w ∈ List.range' 1 wn.toNat
  · rw [availableSlots_filter_of_mem hw]
    refine pairwise_emitWindow ?_ ?_ opening
    · intro b hb
      exact hwf b (List.mem_filter.1 hb).1
    · exact sorted_starts_of_filter_window booked w hsorted
  · rw [availableSlots_filter_of_not_mem hw]
    exact List.Pairwise.nil

/-- Every slot in the flat list is a nonempty interval of at least the
requested duration. -/
theorem availableSlots_mem_length {opening closing : Nat} {dur wn : Int}
    {booked : List Order} {s : Slot}
    (hs : s ∈ availableSlots opening closing dur wn booked) :
    s.starttime < s.endtime ∧ 60 * dur ≤ (s.endtime : Int) - (s.starttime : Int) := by
  simp only [availableSlots, List.mem_flatMap] at hs
  obtain ⟨w, hw, hs⟩ := hs
  exact length_of_mem_emitWindow hs

/-- Every slot in the flat list is tagged with a window number in the
range `1..windowsnumber`. -/
theorem availableSlots_mem_window_range {opening closing : Nat} {dur wn : Int}
    {booked : List Order} {s : Slot}
    (hs : s ∈ availableSlots opening closing dur wn booked) :
    1 ≤ s.washwindow ∧ (s.washwindow : Int) ≤ wn := by
  simp only [availableSlots, List.mem_flatMap] at hs
  obtain ⟨w, hw, hs⟩ := hs
  have hsw := washwindow_of_mem_emitWindow hs
  rw [List.mem_range'_1] at hw
  omega

/-- The SQL row update preserves row identity. -/
theorem setState_orderid (ns : Int) (oid : Nat) (o : Order) :
    (setState ns oid o).orderid = o.orderid := by
  simp only [setState]
  split <;> rfl

/-- Searching for the target id after the row update finds the updated
version of whatever row the search found before. -/
theorem find?_map_setState (ns : Int) (oid : Nat) (l : List Order) :
    (l.map (setState ns oid)).find? (fun o => o.orderid == oid)
      = (l.find? (fun o => o.orderid == oid)).map (setState ns oid) := by
  rw [List.find?_map]
  have hfun : ((fun o : Order => o.orderid == oid) ∘ setState ns oid)
      = (fun o : Order => o.orderid == oid) := by
    funext o
    simp [Function.comp, setState_orderid]
  rw [hfun]

/-- Claim C1, refuting evaluation at a concrete input.  Window 1 has the
bookings 10:00-12:00 (36000-43200 s) and the contained booking
10:30-11:00 (37800-39600 s), processed in ascending start-time order from
opening 08:00 (28800 s) with closing 13:00 (46800 s) and duration 30 min.
After the first booking the cursor is 43200; handling the contained
booking moves it backward to 39600 instead of max(43200, 39600) = 43200,
and as a consequence the computation emits the free slot
[39600, 46800) = [11:00, 13:00), which overlaps the first booking. -/
theorem c1_cursor_regression :
    cursorAfter 28800 [⟨⟨1, 7, 3, 0, 36000, 43200, 1, 1⟩, 11⟩] = 43200 ∧
    cursorAfter 28800 [⟨⟨1, 7, 3, 0, 36000, 43200, 1, 1⟩, 11⟩,
        ⟨⟨1, 7, 3, 0, 37800, 39600, 1, 1⟩, 12⟩] = 39600 ∧
    (39600 : Nat) ≠ max 43200 39600 ∧
    emitWindow 1 30 46800 28800 [⟨⟨1, 7, 3, 0, 36000, 43200, 1, 1⟩, 11⟩,
        ⟨⟨1, 7, 3, 0, 37800, 39600, 1, 1⟩, 12⟩]
      = [⟨1, 28800, 36000⟩, ⟨1, 39600, 46800⟩] :=
  ⟨rfl, rfl, by decide, by decide⟩

/-- Claim C2, refuting evaluation at a concrete input.  The store holds
the referenced carwash and service and zero existing reservations, so the
claim requires "no conflict" and hence a successful creation; instead the
handler fails with the 400 store error produced by its syntactically
invalid availability query (the `AND (` parenthesis never closed), and
the store is left unchanged. -/
theorem c2_creation_always_fails :
    (⟨[⟨1, 28800, 72000, 1⟩], [⟨7, 30, 1⟩], []⟩ : Store).orders = [] ∧
    create_order ⟨[⟨1, 28800, 72000, 1⟩], [⟨7, 30, 1⟩], []⟩ ⟨1, 7, 3, 0, 36000, 37800, 1, 1⟩ 42
      = (.error .storeError, ⟨[⟨1, 28800, 72000, 1⟩], [⟨7, 30, 1⟩], []⟩) :=
  ⟨rfl, rfl⟩

/-- Claim C3: for well-formed intervals (start strictly before end on both
sides), the source's triple-clause overlap condition is logically
equivalent to the canonical half-open overlap test. -/
theorem c3_triple_clause_equiv_canonical (cs ce bs be : Nat)
    (ha : cs < ce) (hb : bs < be) :
    tripleClauseOverlap cs ce bs be = overlaps cs ce bs be := by
  rw [Bool.eq_iff_iff]
  simp only [tripleClauseOverlap, overlaps, Bool.or_eq_true, Bool.and_eq_true,
    decide_eq_true_eq, ge_iff_le, gt_iff_lt]
  omega

/-- Witness for claim C3 at a concrete input: intervals [2, 10) and
[5, 20) are well formed, and both tests agree there. -/
theorem c3_witness :
    (2 : Nat) < 10 ∧ (5 : Nat) < 20 ∧
    tripleClauseOverlap 2 10 5 20 = overlaps 2 10 5 20 :=
  ⟨by decide, by decide, c3_triple_clause_equiv_canonical 2 10 5 20 (by decide) (by decide)⟩

/-- Claim C4, counterexample at a concrete input.  A carwash with two
windows, window 1 fully booked for the day, duration 30 min: window 1 lies
in 1..windowsnumber = 1..2, yet the flat `available_slots` result has no
entry at all for window 1 — the window is omitted instead of being present
with an empty sequence, contradicting "contains an entry for every window
number 1..window_count". -/
theorem c4_counterexample :
    (1 : Int) ≤ (⟨1, 28800, 72000, 2⟩ : Carwash).windowsnumber ∧
    get_available_windows
        ⟨[⟨1, 28800, 72000, 2⟩], [⟨7, 30, 1⟩], [⟨⟨1, 7, 3, 0, 28800, 72000, 1, 1⟩, 99⟩]⟩ 1 0 7
      = .ok [⟨2, 28800, 72000⟩] ∧
    ∀ s ∈ [(⟨2, 28800, 72000⟩ : Slot)], s.washwindow ≠ 1 :=
  ⟨by decide, rfl, by decide⟩

/-- Claim C4 as amended: the availability result is a single flat list of
slots, each tagged with a window number in the range 1..windowsnumber;
windows with no sufficient gap simply contribute no entries (they are
omitted, not present as empty sequences); and within each window the
slots appear in chronological order (strictly increasing start times),
whenever the stored bookings are nonempty intervals. -/
theorem c4_flat_list_ordered (st : Store) (cid d sid : Nat) (cw : Carwash) (sv : Service)
    (slots : List Slot)
    (hcw : st.carwashes.find? (fun c => c.carwashid == cid) = some cw)
    (hsv : st.services.find? (fun s => s.serviceid == sid) = some sv)
    (hwf : ∀ o ∈ st.orders, o.starttime < o.endtime)
    (hok : get_available_windows st cid d sid = .ok slots) :
    (∀ s ∈ slots, 1 ≤ s.washwindow ∧ (s.washwindow : Int) ≤ cw.windowsnumber) ∧
    ∀ w : Nat, (slots.filter (fun s => s.washwindow == w)).Pairwise
      (fun s t => s.starttime < t.starttime) := by
  rw [get_available_windows_ok hcw hsv] at hok
  simp only [Except.ok.injEq] at hok
  subst hok
  constructor
  · intro s hs
    exact availableSlots_mem_window_range hs
  · intro w
    refine (availableSlots_window_pairwise cw.openingtime cw.closingtime sv.duration
      cw.windowsnumber (ordersFor st cid d) w (ordersFor_wf st cid d hwf)
      (ordersFor_sorted st cid d)).imp ?_
    exact fun h => h.2

/-- Witness for claim C4's amended statement: one booking 10:00-10:30 in a
one-window facility open 08:00-20:00, duration 30; the flat result is
[[08:00,10:00), [10:30,20:00)] and its window-1 slots are in strictly
increasing start order. -/
theorem c4_witness :
    (([⟨1, 28800, 36000⟩, ⟨1, 37800, 72000⟩] : List Slot).filter
        (fun s => s.washwindow == 1)).Pairwise (fun s t => s.starttime < t.starttime) :=
  (c4_flat_list_ordered ⟨[⟨1, 28800, 72000, 1⟩], [⟨7, 30, 1⟩],
      [⟨⟨1, 7, 3, 0, 36000, 37800, 1, 1⟩, 11⟩]⟩ 1 0 7
    ⟨1, 28800, 72000, 1⟩ ⟨7, 30, 1⟩ [⟨1, 28800, 36000⟩, ⟨1, 37800, 72000⟩]
    rfl rfl (by decide) rfl).2 1

/-- Claim C5, counterexample at a concrete input.  The referenced service
has duration 0 ≤ 0, yet the availability endpoint returns a normal slot
result (the whole opening span) instead of rejecting the input before
computing slots. -/
theorem c5_counterexample :
    (⟨7, 0, 1⟩ : Service).duration ≤ 0 ∧
    get_available_windows ⟨[⟨1, 28800, 72000, 1⟩], [⟨7, 0, 1⟩], []⟩ 1 0 7
      = .ok [⟨1, 28800, 72000⟩] :=
  ⟨by decide, rfl⟩

/-- Claim C5 as amended: the availability computation performs no input
validation at all.  Whenever the referenced carwash and service exist it
returns a normal `.ok` slot result — also for duration ≤ 0 — and for a
facility with windowsnumber < 1 that normal result is the empty slot
list (Python's `range(1, windows_number + 1)` is empty). -/
theorem c5_no_validation (st : Store) (cid d sid : Nat) (cw : Carwash) (sv : Service)
    (hcw : st.carwashes.find? (fun c => c.carwashid == cid) = some cw)
    (hsv : st.services.find? (fun s => s.serviceid == sid) = some sv) :
    (∃ slots, get_available_windows st cid d sid = .ok slots) ∧
    (cw.windowsnumber < 1 → get_available_windows st cid d sid = .ok []) := by
  constructor
  · exact ⟨_, get_available_windows_ok hcw hsv⟩
  · intro hlt
    rw [get_available_windows_ok hcw hsv]
    have h0 : cw.windowsnumber.toNat = 0 := by omega
    simp [availableSlots, h0]

/-- Witness for claim C5's amended statement: a carwash configured with
windowsnumber = 0 and a service of duration 30 produce the normal result
`.ok []` rather than a rejection. -/
theorem c5_witness :
    get_available_windows ⟨[⟨1, 28800, 72000, 0⟩], [⟨7, 30, 1⟩], []⟩ 1 0 7 = .ok [] :=
  (c5_no_validation ⟨[⟨1, 28800, 72000, 0⟩], [⟨7, 30, 1⟩], []⟩ 1 0 7
    ⟨1, 28800, 72000, 0⟩ ⟨7, 30, 1⟩ rfl rfl).2 (by decide)

/-- Claim C6: a creation request whose referenced carwash or service is
absent fails NotFound with the store unchanged, for every possible
existing-reservations collection (the outcome never depends on the orders
table and no write happens); and creation is all-or-nothing — whenever
the handler fails, the store is exactly what it was. -/
theorem c6_notfound_first_and_atomic (st : Store) (o : OrderBase) (nid : Nat) :
    (((st.carwashes.find? (fun c => c.carwashid == o.carwashid)).isNone
        ∨ (st.services.find? (fun s => s.serviceid == o.serviceid)).isNone) →
      ∀ os : List Order,
        create_order ⟨st.carwashes, st.services, os⟩ o nid
          = (.error .notFound, ⟨st.carwashes, st.services, os⟩))
    ∧ (∀ e : ApiError, (create_order st o nid).1 = .error e →
        (create_order st o nid).2 = st) := by
  constructor
  · intro h os
    have hb : ((Store.mk st.carwashes st.services os).carwashes.find?
          (fun c => c.carwashid == o.carwashid)).isNone
        || ((Store.mk st.carwashes st.services os).services.find?
          (fun s => s.serviceid == o.serviceid)).isNone := by
      simp only [Bool.or_eq_true]
      exact h
    simp only [create_order, if_pos hb]
  · intro e he
    simp only [create_order]
    split <;> rfl

/-- Witness for claim C6: the candidate references carwash 1, which is
absent from the store; creation fails NotFound and the store (with its
empty orders collection) is unchanged. -/
theorem c6_witness :
    create_order ⟨[], [⟨7, 30, 1⟩], []⟩ ⟨1, 7, 3, 0, 36000, 37800, 1, 1⟩ 5
      = (.error .notFound, ⟨[], [⟨7, 30, 1⟩], []⟩) :=
  (c6_notfound_first_and_atomic ⟨[], [⟨7, 30, 1⟩], []⟩
    ⟨1, 7, 3, 0, 36000, 37800, 1, 1⟩ 5).1 (.inl (by decide)) []

/-- Claim C7: for a positive duration and a window in range with zero
bookings, the availability computation produces for that window exactly
the single free interval [opening, closing) when the open span is at
least `duration` minutes (times are in seconds, hence the factor 60), and
nothing for that window otherwise. -/
theorem c7_zero_bookings (opening closing : Nat) (d wn : Int) (booked : List Order)
    (w : Nat) (hw : w ∈ List.range' 1 wn.toNat)
    (hnone : booked.filter (fun b => b.washwindow == (w : Int)) = [])
    (hd : 1 ≤ d) :
    (availableSlots opening closing d wn booked).filter (fun s => s.washwindow == w)
      = if 60 * d ≤ (closing : Int) - (opening : Int) then [⟨w, opening, closing⟩]
        else [] := by
  rw [availableSlots_filter_of_mem hw, hnone]
  simp only [emitWindow]
  split_ifs with h1 h2 h2
  · rfl
  · exact absurd h1.2 h2
  · exact absurd ⟨by omega, h2⟩ h1
  · rfl

/-- Witness for claim C7 at a concrete input: a one-window facility open
08:00-20:00 with no bookings and duration 30 yields exactly the slot
[08:00, 20:00) for window 1. -/
theorem c7_witness :
    (availableSlots 28800 72000 30 1 []).filter (fun s => s.washwindow == 1)
      = if (60 * 30 : Int) ≤ (72000 : Int) - (28800 : Int) then [⟨1, 28800, 72000⟩]
        else [] :=
  c7_zero_bookings 28800 72000 30 1 [] 1 (by decide) rfl (by decide)

/-- Claim C8: `update_order_state` fails NotFound exactly when no stored
order has the given id (leaving the store unchanged); otherwise, for any
integer new state — no validation of legal successors, arbitrary jumps
included — it returns the found record with only its state field
replaced, keeps the carwashes, the services and the number of orders
unchanged, leaves every order with a different id in place, and every
order with the target id is present with only its state rewritten. -/
theorem c8_update_state (st : Store) (oid : Nat) (ns : Int) :
    ((update_order_state st oid ns).1 = .error .notFound ↔ ∀ o ∈ st.orders, o.orderid ≠ oid)
    ∧ ((update_order_state st oid ns).1 = .error .notFound →
        (update_order_state st oid ns).2 = st)
    ∧ (∀ f, st.orders.find? (fun o => o.orderid == oid) = some f →
        (update_order_state st oid ns).1 = .ok { f with state := ns }
        ∧ (update_order_state st oid ns).2.carwashes = st.carwashes
        ∧ (update_order_state st oid ns).2.services = st.services
        ∧ (update_order_state st oid ns).2.orders.length = st.orders.length
        ∧ (∀ o ∈ st.orders, o.orderid ≠ oid → o ∈ (update_order_state st oid ns).2.orders)
        ∧ (∀ o ∈ st.orders, o.orderid = oid →
            { o with state := ns } ∈ (update_order_state st oid ns).2.orders)) := by
  cases hfind : st.orders.find? (fun o => o.orderid == oid) with
  | none =>
    have hres : update_order_state st oid ns = (.error .notFound, st) := by
      simp only [update_order_state, hfind, Option.isNone_none, if_pos]
    have hnone := List.find?_eq_none.1 hfind
    refine ⟨?_, ?_, ?_⟩
    · rw [hres]
      simp only [true_iff]
      intro o ho
      simpa using hnone o ho
    · intro _
      rw [hres]
    · intro f hf
      exact absurd hf (by simp)
  | some f0 =>
    have hmap := find?_map_setState ns oid st.orders
    rw [hfind] at hmap
    have hres : update_order_state st oid ns
        = (.ok (setState ns oid f0), ⟨st.carwashes, st.services,
            st.orders.map (setState ns oid)⟩) := by
      simp only [update_order_state, hfind, Option.isNone_some, Bool.false_eq_true,
        if_false, hmap]
      rfl
    have hmem0 := List.mem_of_find?_eq_some hfind
    have hp0 := List.find?_some hfind
    simp only [beq_iff_eq] at hp0
    refine ⟨?_, ?_, ?_⟩
    · rw [hres]
      simp only [reduceCtorEq, false_iff, not_forall]
      exact ⟨f0, hmem0, by simpa using hp0⟩
    · intro h
      rw [hres] at h
      exact absurd h (by simp)
    · intro f hf
      have hf0 : f = f0 := by
        simpa using hf.symm
      subst hf0
      have hset : setState ns oid f = { f with state := ns } := by
        simp [setState, hp0]
      refine ⟨by rw [hres, hset], by rw [hres], by rw [hres], ?_, ?_, ?_⟩
      · rw [hres]
        exact List.length_map _ _
      · intro o ho hne
        rw [hres]
        refine List.mem_map.2 ⟨o, ho, ?_⟩
        simp [setState, hne]
      · intro o ho heq
        rw [hres]
        refine List.mem_map.2 ⟨o, ho, ?_⟩
        simp [setState, heq]

/-- Witness for claim C8 at a concrete input: updating order 42 to the
arbitrary state 5 (a jump with no validation) returns the stored record
with only its state replaced. -/
theorem c8_witness :
    (update_order_state ⟨[], [], [⟨⟨1, 7, 3, 0, 600, 630, 1, 1⟩, 42⟩]⟩ 42 5).1
      = .ok ⟨⟨1, 7, 3, 0, 600, 630, 1, 5⟩, 42⟩ :=
  ((c8_update_state ⟨[], [], [⟨⟨1, 7, 3, 0, 600, 630, 1, 1⟩, 42⟩]⟩ 42 5).2.2
    ⟨⟨1, 7, 3, 0, 600, 630, 1, 1⟩, 42⟩ rfl).1

/-- Claim C9: whenever the availability endpoint succeeds and the stored
bookings are nonempty intervals — in arbitrary arrangement, overlapping
and contained bookings included — the slots emitted for any one window
are pairwise disjoint (each ends no later than the next starts) with
strictly increasing start times, and every emitted slot is at least the
requested service duration long (times in seconds, duration in
minutes). -/
theorem c9_slots_disjoint_and_long (st : Store) (cid d sid : Nat) (cw : Carwash)
    (sv : Service) (slots : List Slot)
    (hcw : st.carwashes.find? (fun c => c.carwashid == cid) = some cw)
    (hsv : st.services.find? (fun s => s.serviceid == sid) = some sv)
    (hwf : ∀ o ∈ st.orders, o.starttime < o.endtime)
    (hok : get_available_windows st cid d sid = .ok slots) :
    (∀ w : Nat, (slots.filter (fun s => s.washwindow == w)).Pairwise
        (fun s t => s.endtime ≤ t.starttime ∧ s.starttime < t.starttime))
    ∧ ∀ s ∈ slots, s.starttime < s.endtime
        ∧ 60 * sv.duration ≤ (s.endtime : Int) - (s.starttime : Int) := by
  rw [get_available_windows_ok hcw hsv] at hok
  simp only [Except.ok.injEq] at hok
  subst hok
  constructor
  · intro w
    exact availableSlots_window_pairwise cw.openingtime cw.closingtime sv.duration
      cw.windowsnumber (ordersFor st cid d) w (ordersFor_wf st cid d hwf)
      (ordersFor_sorted st cid d)
  · intro s hs
    exact availableSlots_mem_length hs

/-- Witness for claim C9 at a concrete input: one booking 10:00-10:30,
window 1, duration 30; the two emitted window-1 slots are disjoint with
increasing starts, and the first slot is a nonempty interval at least 30
minutes long. -/
theorem c9_witness :
    (([⟨1, 28800, 36000⟩, ⟨1, 37800, 72000⟩] : List Slot).filter
        (fun s => s.washwindow == 1)).Pairwise
      (fun s t => s.endtime ≤ t.starttime ∧ s.starttime < t.starttime)
    ∧ ((⟨1, 28800, 36000⟩ : Slot).starttime < (⟨1, 28800, 36000⟩ : Slot).endtime
        ∧ 60 * (⟨7, 30, 1⟩ : Service).duration
            ≤ ((⟨1, 28800, 36000⟩ : Slot).endtime : Int)
              - ((⟨1, 28800, 36000⟩ : Slot).starttime : Int)) :=
  ⟨(c9_slots_disjoint_and_long ⟨[⟨1, 28800, 72000, 1⟩], [⟨7, 30, 1⟩],
      [⟨⟨1, 7, 3, 0, 36000, 37800, 1, 1⟩, 11⟩]⟩ 1 0 7
      ⟨1, 28800, 72000, 1⟩ ⟨7, 30, 1⟩ [⟨1, 28800, 36000⟩, ⟨1, 37800, 72000⟩]
      rfl rfl (by decide) rfl).1 1,
   (c9_slots_disjoint_and_long ⟨[⟨1, 28800, 72000, 1⟩], [⟨7, 30, 1⟩],
      [⟨⟨1, 7, 3, 0, 36000, 37800, 1, 1⟩, 11⟩]⟩ 1 0 7
      ⟨1, 28800, 72000, 1⟩ ⟨7, 30, 1⟩ [⟨1, 28800, 36000⟩, ⟨1, 37800, 72000⟩]
      rfl rfl (by decide) rfl).2 ⟨1, 28800, 36000⟩ (by decide)⟩

/-- Claim C10, refuting evaluation at a concrete input.  The request model
does default the state field to 1 when the client omits it, and a request
may carry state 5; but no reservation can ever be created in any state:
against a store holding the referenced carwash and service (and no
existing reservations) the handler fails with the store error raised by
its syntactically invalid availability query, and nothing is persisted. -/
theorem c10_state_never_persisted :
    ({ carwashid := 1, serviceid := 7, clientid := 3, date := 0,
        starttime := 36000, endtime := 37800, washwindow := 1 } : OrderBase).state = 1 ∧
    (⟨1, 7, 3, 0, 36000, 37800, 1, 5⟩ : OrderBase).state = 5 ∧
    create_order ⟨[⟨1, 28800, 72000, 1⟩], [⟨7, 30, 1⟩], []⟩ ⟨1, 7, 3, 0, 36000, 37800, 1, 5⟩ 42
      = (.error .storeError, ⟨[⟨1, 28800, 72000, 1⟩], [⟨7, 30, 1⟩], []⟩) :=
  ⟨rfl, rfl, rfl⟩
